import Mathlib

/-!
Verification of the NTU graduation-credit calculator core: the credit/GPA
aggregation engine (`SummaryCard` in `src/App.tsx`), the chronological
semester comparator (`compareSemesters` / the display sort in
`renderSection`), and the course-list update operation
(`handleUpdateCourse`), over a shallow embedding of the TypeScript source.

JS numbers are modelled as rationals (ℚ); the values involved (credits,
4.3-scale grade points) are small decimals, and `toFixed(2)` is modelled as
rounding the rational to two decimal places.  Category and grade fields are
modelled as raw strings, matching that the source looks them up in string
maps / string comparisons and tolerates out-of-domain values.
-/

namespace NTUCredits

/-- A course record, mirroring `Course` in `src/types.ts`.  `category` and
`grade` are raw strings: the source stores them as strings and handles
unrecognized values by fallback, which several claims are about. -/
structure Course where
  id : String
  semester : String
  name : String
  credits : ℚ
  category : String
  grade : String
  isCurrent : Bool
  deriving DecidableEq, Repr

/-- `GRADE_POINTS` from `src/types.ts`: a string-keyed record.  A key missing
from the record yields JS `undefined`, modelled as `none` (the source's
`points >= 0` test is false on `undefined`, matching the `none` branch of
the consumers below). -/
def GRADE_POINTS (g : String) : Option ℚ :=
  if g = "A+" then some (43/10)
  else if g = "A" then some 4
  else if g = "A-" then some (37/10)
  else if g = "B+" then some (33/10)
  else if g = "B" then some 3
  else if g = "B-" then some (27/10)
  else if g = "C+" then some (23/10)
  else if g = "C" then some 2
  else if g = "C-" then some (17/10)
  else if g = "F" then some 0
  else if g = "Pass" then some (-1)
  else none

/-- `GraduationRequirements` from `src/types.ts`. -/
structure GraduationRequirements where
  total : ℚ
  commonRequired : ℚ
  deptRequired : ℚ
  designatedElective : ℚ
  generalElective : ℚ
  generalEducation : ℚ
  deriving DecidableEq, Repr

/-- An `(earned, projected)` credit pair, one entry of the accumulator
`initialAcc` in `SummaryCard`. -/
@[ext] structure CreditPair where
  earned : ℚ
  projected : ℚ
  deriving DecidableEq, Repr

/-- The accumulator structure `initialAcc` of the `courses.reduce` in
`SummaryCard`: a total pair plus one pair per credit-bearing category. -/
@[ext] structure CreditTotals where
  total : CreditPair
  commonRequired : CreditPair
  deptRequired : CreditPair
  designatedElective : CreditPair
  generalElective : CreditPair
  generalEducation : CreditPair
  deriving DecidableEq, Repr

/-- `initialAcc` in `SummaryCard`: every pair starts at `(0, 0)`. -/
def initialAcc : CreditTotals :=
  ⟨⟨0, 0⟩, ⟨0, 0⟩, ⟨0, 0⟩, ⟨0, 0⟩, ⟨0, 0⟩, ⟨0, 0⟩⟩

/-- The five credit-bearing bucket keys, the possible values of `targetKey`
in `SummaryCard`. -/
inductive BucketKey where
  | commonRequired
  | deptRequired
  | designatedElective
  | generalElective
  | generalEducation
  deriving DecidableEq, Repr

/-- The `targetKey` conditional chain in `SummaryCard`: map a category
string to a bucket, defaulting to `generalElective` for `其他` or any
unknown string. -/
def targetKey (cat : String) : BucketKey :=
  if cat = "共同必修" then .commonRequired
  else if cat = "系訂必修" then .deptRequired
  else if cat = "指定選修" then .designatedElective
  else if cat = "一般選修" then .generalElective
  else if cat = "通識" then .generalEducation
  else .generalElective

/-- Read the bucket `k` of the accumulator (the `acc[targetKey]` access). -/
def bucketGet (t : CreditTotals) : BucketKey → CreditPair
  | .commonRequired => t.commonRequired
  | .deptRequired => t.deptRequired
  | .designatedElective => t.designatedElective
  | .generalElective => t.generalElective
  | .generalEducation => t.generalEducation

/-- Write the bucket `k` of the accumulator (the `acc[targetKey] = ...`
mutation, made functional). -/
def bucketSet (t : CreditTotals) (k : BucketKey) (p : CreditPair) : CreditTotals :=
  match k with
  | .commonRequired => { t with commonRequired := p }
  | .deptRequired => { t with deptRequired := p }
  | .designatedElective => { t with designatedElective := p }
  | .generalElective => { t with generalElective := p }
  | .generalEducation => { t with generalEducation := p }

/-- One step of the `courses.reduce` in `SummaryCard`: skip `體育` (PE)
courses entirely, otherwise add the credits to the target bucket and to the
total, in the `projected` field when `isCurrent` and in `earned` otherwise. -/
def stepTotals (acc : CreditTotals) (course : Course) : CreditTotals :=
  if course.category = "體育" then acc
  else
    let k := targetKey course.category
    if course.isCurrent then
      let acc1 := bucketSet acc k
        ⟨(bucketGet acc k).earned, (bucketGet acc k).projected + course.credits⟩
      { acc1 with total := ⟨acc1.total.earned, acc1.total.projected + course.credits⟩ }
    else
      let acc1 := bucketSet acc k
        ⟨(bucketGet acc k).earned + course.credits, (bucketGet acc k).projected⟩
      { acc1 with total := ⟨acc1.total.earned + course.credits, acc1.total.projected⟩ }

/-- The full `totals` computation: `courses.reduce(..., initialAcc)`. -/
def computeTotals (courses : List Course) : CreditTotals :=
  courses.foldl stepTotals initialAcc

/-- The four GPA accumulator variables of `SummaryCard`
(`earnedPoints`, `earnedCredits`, `projectedPoints`, `projectedCredits`). -/
@[ext] structure GpaAcc where
  earnedPoints : ℚ
  earnedCredits : ℚ
  projectedPoints : ℚ
  projectedCredits : ℚ
  deriving DecidableEq, Repr

/-- One step of the `courses.forEach` GPA loop in `SummaryCard`.  The source
tests `points >= 0 && course.credits > 0 && course.category !== '體育'`;
when `GRADE_POINTS[course.grade]` is `undefined` (our `none`) that test is
false, so the course is skipped. -/
def gpaStep (acc : GpaAcc) (course : Course) : GpaAcc :=
  match GRADE_POINTS course.grade with
  | some points =>
    if 0 ≤ points ∧ 0 < course.credits ∧ ¬ course.category = "體育" then
      if course.isCurrent then
        { acc with
          projectedPoints := acc.projectedPoints + points * course.credits,
          projectedCredits := acc.projectedCredits + course.credits }
      else
        { acc with
          earnedPoints := acc.earnedPoints + points * course.credits,
          earnedCredits := acc.earnedCredits + course.credits }
    else acc
  | none => acc

/-- The GPA accumulation loop over the whole course list. -/
def computeGpa (courses : List Course) : GpaAcc :=
  courses.foldl gpaStep ⟨0, 0, 0, 0⟩

/-- Model of JS `Number.prototype.toFixed(2)` on the non-negative rationals
arising here: round to the nearest hundredth and print with exactly two
fractional digits. -/
def toFixed2 (q : ℚ) : String :=
  let n := (round (q * 100)).toNat
  if n % 100 < 10 then
    toString (n / 100) ++ ".0" ++ toString (n % 100)
  else
    toString (n / 100) ++ "." ++ toString (n % 100)

/-- `currentGPA` in `SummaryCard`:
`earnedCredits > 0 ? (earnedPoints / earnedCredits).toFixed(2) : "0.00"`. -/
def currentGPAOf (courses : List Course) : String :=
  let g := computeGpa courses
  if 0 < g.earnedCredits then toFixed2 (g.earnedPoints / g.earnedCredits) else "0.00"

/-- `projectedGPA` in `SummaryCard`: the cumulative earned+projected pools,
with the same zero guard. -/
def projectedGPAOf (courses : List Course) : String :=
  let g := computeGpa courses
  if 0 < g.earnedCredits + g.projectedCredits then
    toFixed2 ((g.earnedPoints + g.projectedPoints) / (g.earnedCredits + g.projectedCredits))
  else "0.00"

/-- The ProgressReport: everything `SummaryCard` derives from the course
list (the bucket totals and the two GPA strings). -/
@[ext] structure ProgressReport where
  totals : CreditTotals
  currentGPA : String
  projectedGPA : String
  deriving DecidableEq, Repr

/-- The aggregation engine `computeProgress`: the whole numeric derivation
performed by `SummaryCard` from its `courses` and `requirements` props.  The
requirements only feed the rendered progress bars, not any report field, so
the report does not depend on them. -/
def computeProgress (courses : List Course) (_requirements : GraduationRequirements) :
    ProgressReport :=
  ⟨computeTotals courses, currentGPAOf courses, projectedGPAOf courses⟩

/-! ## Chronological ordering (`compareSemesters` and the display sort) -/

/-- Model of `semester.split(/[^0-9]/).map(parseInt).filter(!isNaN)`:
scan the characters, accumulating the current maximal digit run (the
`some n` state); each completed run emits its numeric value.  Tokens
produced by `split` that contain no digit parse to `NaN` and are filtered
out, so only the maximal digit runs remain. -/
def semNumsAux : List Char → Option Nat → List Nat
  | [], none => []
  | [], some n => [n]
  | c :: cs, none =>
    if c.isDigit then semNumsAux cs (some (c.toNat - 48)) else semNumsAux cs none
  | c :: cs, some n =>
    if c.isDigit then semNumsAux cs (some (n * 10 + (c.toNat - 48)))
    else n :: semNumsAux cs none

/-- The numeric tokens of a semester label. -/
def semNums (s : String) : List Nat := semNumsAux s.data none

/-- `splitA[0] || 0`: the academic-year token, defaulting to 0.  (In the
source `0 || 0` is also `0`, so reading the default through `headD` is
exact.) -/
def semYear (s : String) : Nat := (semNums s).headD 0

/-- `splitA[1] || 0`: the term token, defaulting to 0. -/
def semTerm (s : String) : Nat := (semNums s).getD 1 0

/-- `compareSemesters` from `CourseTable`: compare academic years, then
terms, by numeric subtraction. -/
def compareSemesters (semA semB : String) : ℤ :=
  if semYear semA ≠ semYear semB then (semYear semA : ℤ) - semYear semB
  else (semTerm semA : ℤ) - semTerm semB

/-- Lexicographic three-way comparison of character lists by code point. -/
def charListCmp : List Char → List Char → ℤ
  | [], [] => 0
  | [], _ :: _ => -1
  | _ :: _, [] => 1
  | a :: as, b :: bs =>
    if a < b then -1 else if b < a then 1 else charListCmp as bs

/-- Model of `String.prototype.localeCompare` as lexicographic code-point
comparison: negative, zero or positive according to the order of the two
strings. -/
def localeCompare (a b : String) : ℤ :=
  charListCmp a.data b.data

/-- The display comparator passed to `.sort` in `renderSection`:
`compareSemesters` on the semester labels, then `localeCompare` on the
names. -/
def displayCmp (a b : Course) : ℤ :=
  let semDiff := compareSemesters a.semester b.semester
  if semDiff ≠ 0 then semDiff else localeCompare a.name b.name

/-- Insert a course after all already-placed courses that do not compare
strictly greater. -/
def insertCourse (c : Course) : List Course → List Course
  | [] => [c]
  | x :: xs => if displayCmp c x < 0 then c :: x :: xs else x :: insertCourse c xs

/-- Model of the stable `Array.prototype.sort` with `displayCmp`: insert
the courses left to right, each landing after any courses already present
that it ties with (preserving original relative order of ties). -/
def sortCoursesForDisplay (l : List Course) : List Course :=
  l.foldl (fun acc c => insertCourse c acc) []

/-- Whether the display comparator ties course `y` with course `x`. -/
def tiedWith (x y : Course) : Bool := decide (displayCmp x y = 0)

/-! ## Course-list update (`handleUpdateCourse`) -/

/-- `handleUpdateCourse` in `App`:
`prev.map((c) => (c.id === updatedCourse.id ? updatedCourse : c))`. -/
def updateCourse (updatedCourse : Course) (prev : List Course) : List Course :=
  prev.map (fun c => if c.id = updatedCourse.id then updatedCourse else c)

/-! ## Per-course contribution functions

Each numeric field of the fold accumulators equals its initial value plus
the sum of a per-course contribution; these functions name those
contributions, and the lemmas below establish the characterization. -/

/-- Contribution of one course to bucket `k`'s `earned` field. -/
def creditEarnedAt (k : BucketKey) (c : Course) : ℚ :=
  if c.category = "體育" then 0
  else if targetKey c.category = k ∧ c.isCurrent = false then c.credits else 0

/-- Contribution of one course to bucket `k`'s `projected` field. -/
def creditProjectedAt (k : BucketKey) (c : Course) : ℚ :=
  if c.category = "體育" then 0
  else if targetKey c.category = k ∧ c.isCurrent = true then c.credits else 0

/-- Contribution of one course to `total.earned`. -/
def totalEarnedOf (c : Course) : ℚ :=
  if c.category = "體育" then 0 else if c.isCurrent = false then c.credits else 0

/-- Contribution of one course to `total.projected`. -/
def totalProjectedOf (c : Course) : ℚ :=
  if c.category = "體育" then 0 else if c.isCurrent = true then c.credits else 0

/-- Whether a course enters the GPA pools: a mapped non-negative grade
point, positive credits, and not PE. -/
def gpaEligible (c : Course) : Prop :=
  match GRADE_POINTS c.grade with
  | some points => 0 ≤ points ∧ 0 < c.credits ∧ ¬ c.category = "體育"
  | none => False

instance (c : Course) : Decidable (gpaEligible c) := by
  unfold gpaEligible
  cases GRADE_POINTS c.grade <;> simp <;> infer_instance

/-- The grade point of a course, 0 when unmapped (only used multiplied
under `gpaEligible`). -/
def gradePointOf (c : Course) : ℚ := (GRADE_POINTS c.grade).getD 0

/-- Contribution of one course to `earnedPoints`. -/
def gpaEarnedPointsOf (c : Course) : ℚ :=
  if gpaEligible c ∧ c.isCurrent = false then gradePointOf c * c.credits else 0

/-- Contribution of one course to `earnedCredits`. -/
def gpaEarnedCreditsOf (c : Course) : ℚ :=
  if gpaEligible c ∧ c.isCurrent = false then c.credits else 0

/-- Contribution of one course to `projectedPoints`. -/
def gpaProjectedPointsOf (c : Course) : ℚ :=
  if gpaEligible c ∧ c.isCurrent = true then gradePointOf c * c.credits else 0

/-- Contribution of one course to `projectedCredits`. -/
def gpaProjectedCreditsOf (c : Course) : ℚ :=
  if gpaEligible c ∧ c.isCurrent = true then c.credits else 0

/-! ## Example data for the concrete claims and witnesses -/

/-- `ACCOUNTING_111_REQUIREMENTS` from `src/App.tsx`. -/
def ACCOUNTING_111_REQUIREMENTS : GraduationRequirements :=
  ⟨133, 9, 69, 21, 19, 15⟩

/-- First course of the spec's worked example: 3 credits, grade `A+`,
department-required, completed. -/
def exCourseA : Course := ⟨"ex-a", "112-1", "Intermediate Accounting", 3, "系訂必修", "A+", false⟩

/-- Second course of the spec's worked example: 3 credits, grade `B`,
department-required, in progress. -/
def exCourseB : Course := ⟨"ex-b", "113-1", "Auditing", 3, "系訂必修", "B", true⟩

/-- A 4-credit physical-education course (in progress). -/
def exCoursePE : Course := ⟨"ex-pe", "113-1", "Swimming", 4, "體育", "A", true⟩

/-- A 10-credit `Pass` course used as the C4 witness input. -/
def exCoursePass : Course := ⟨"ex-p", "112-2", "Service Learning", 10, "其他", "Pass", false⟩

/-- A course with a legacy category string, the C5 witness input. -/
def exCourseUnknown : Course := ⟨"ex-u", "110-1", "Legacy Course", 2, "Unknown", "A", false⟩

/-- First course of the spec's chronological-ordering example. -/
def semEx0 : Course := ⟨"s0", "111-2", "n0", 3, "其他", "A", false⟩

/-- Second course of the ordering example. -/
def semEx1 : Course := ⟨"s1", "111-1", "n1", 3, "其他", "A", false⟩

/-- Third course of the ordering example. -/
def semEx2 : Course := ⟨"s2", "112-1", "n2", 3, "其他", "A", false⟩

/-- Fourth course of the ordering example. -/
def semEx3 : Course := ⟨"s3", "109", "n3", 3, "其他", "A", false⟩

/-- Two different semester strings that parse to the same (year, term)
key. -/
def cmpCourseA : Course := ⟨"x1", "111-1", "Same Name", 3, "其他", "A", false⟩

/-- Same parsed key as `cmpCourseA`, written with a slash. -/
def cmpCourseB : Course := ⟨"x2", "111/1", "Same Name", 3, "其他", "A", false⟩

/-- Third course sharing the parsed key and name, used in the C9 witness. -/
def cmpCourseC : Course := ⟨"x3", "111-01", "Same Name", 4, "通識", "B", true⟩

/-- A replacement course whose id matches nothing in the C10 witness
list. -/
def updCourse : Course := ⟨"upd-1", "113-2", "Replacement", 3, "通識", "A-", false⟩

/-! ## Characterization lemmas: every accumulator field is a sum of
per-course contributions. -/

theorem bucketGet_bucketSet (t : CreditTotals) (k j : BucketKey) (p : CreditPair) :
    bucketGet (bucketSet t k p) j = if k = j then p else bucketGet t j := by
  cases k <;> cases j <;> simp [bucketGet, bucketSet]

theorem total_bucketSet (t : CreditTotals) (k : BucketKey) (p : CreditPair) :
    (bucketSet t k p).total = t.total := by
  cases k <;> simp [bucketSet]

theorem bucketGet_setTotal (t : CreditTotals) (x : CreditPair) (j : BucketKey) :
    bucketGet { t with total := x } j = bucketGet t j := by
  cases j <;> simp [bucketGet]

theorem bucketGet_initialAcc (k : BucketKey) : bucketGet initialAcc k = ⟨0, 0⟩ := by
  cases k <;> rfl

theorem bucketGet_stepTotals (acc : CreditTotals) (c : Course) (k : BucketKey) :
    bucketGet (stepTotals acc c) k =
      ⟨(bucketGet acc k).earned + creditEarnedAt k c,
       (bucketGet acc k).projected + creditProjectedAt k c⟩ := by
  unfold stepTotals creditEarnedAt creditProjectedAt
  by_cases hPE : c.category = "體育"
  · simp [hPE]
  · simp only [hPE, if_false]
    cases hc : c.isCurrent <;>
      simp only [Bool.false_eq_true, and_false, and_true, if_false, if_true,
        bucketGet_setTotal, bucketGet_bucketSet] <;>
      by_cases hk : targetKey c.category = k <;> simp [hk]

theorem total_stepTotals (acc : CreditTotals) (c : Course) :
    (stepTotals acc c).total =
      ⟨acc.total.earned + totalEarnedOf c, acc.total.projected + totalProjectedOf c⟩ := by
  unfold stepTotals totalEarnedOf totalProjectedOf
  by_cases hPE : c.category = "體育"
  · simp [hPE]
  · cases hc : c.isCurrent <;> simp [hPE, hc, total_bucketSet]

theorem bucketGet_foldl (L : List Course) (acc : CreditTotals) (k : BucketKey) :
    bucketGet (L.foldl stepTotals acc) k =
      ⟨(bucketGet acc k).earned + (L.map (creditEarnedAt k)).sum,
       (bucketGet acc k).projected + (L.map (creditProjectedAt k)).sum⟩ := by
  induction L generalizing acc with
  | nil => simp
  | cons c L ih => simp [List.foldl_cons, ih, bucketGet_stepTotals, add_assoc]

theorem total_foldl (L : List Course) (acc : CreditTotals) :
    (L.foldl stepTotals acc).total =
      ⟨acc.total.earned + (L.map totalEarnedOf).sum,
       acc.total.projected + (L.map totalProjectedOf).sum⟩ := by
  induction L generalizing acc with
  | nil => simp
  | cons c L ih => simp [List.foldl_cons, ih, total_stepTotals, add_assoc]

theorem bucketGet_computeTotals (L : List Course) (k : BucketKey) :
    bucketGet (computeTotals L) k =
      ⟨(L.map (creditEarnedAt k)).sum, (L.map (creditProjectedAt k)).sum⟩ := by
  simp [computeTotals, bucketGet_foldl, bucketGet_initialAcc]

theorem total_computeTotals (L : List Course) :
    (computeTotals L).total =
      ⟨(L.map totalEarnedOf).sum, (L.map totalProjectedOf).sum⟩ := by
  have h := total_foldl L initialAcc
  simpa [computeTotals, initialAcc] using h

theorem gpaStep_eq (acc : GpaAcc) (c : Course) :
    gpaStep acc c =
      ⟨acc.earnedPoints + gpaEarnedPointsOf c,
       acc.earnedCredits + gpaEarnedCreditsOf c,
       acc.projectedPoints + gpaProjectedPointsOf c,
       acc.projectedCredits + gpaProjectedCreditsOf c⟩ := by
  cases hg : GRADE_POINTS c.grade with
  | none =>
    simp [gpaStep, hg, gpaEarnedPointsOf, gpaEarnedCreditsOf,
      gpaProjectedPointsOf, gpaProjectedCreditsOf, gpaEligible]
  | some p =>
    by_cases helig : 0 ≤ p ∧ 0 < c.credits ∧ ¬ c.category = "體育"
    · cases hc : c.isCurrent <;>
        simp [gpaStep, hg, helig, hc, gpaEarnedPointsOf, gpaEarnedCreditsOf,
          gpaProjectedPointsOf, gpaProjectedCreditsOf, gpaEligible, gradePointOf]
    · simp [gpaStep, hg, helig, gpaEarnedPointsOf, gpaEarnedCreditsOf,
        gpaProjectedPointsOf, gpaProjectedCreditsOf, gpaEligible]

theorem gpa_foldl (L : List Course) (acc : GpaAcc) :
    L.foldl gpaStep acc =
      ⟨acc.earnedPoints + (L.map gpaEarnedPointsOf).sum,
       acc.earnedCredits + (L.map gpaEarnedCreditsOf).sum,
       acc.projectedPoints + (L.map gpaProjectedPointsOf).sum,
       acc.projectedCredits + (L.map gpaProjectedCreditsOf).sum⟩ := by
  induction L generalizing acc with
  | nil => simp
  | cons c L ih => simp [List.foldl_cons, ih, gpaStep_eq, add_assoc]

theorem computeGpa_eq (L : List Course) :
    computeGpa L =
      ⟨(L.map gpaEarnedPointsOf).sum, (L.map gpaEarnedCreditsOf).sum,
       (L.map gpaProjectedPointsOf).sum, (L.map gpaProjectedCreditsOf).sum⟩ := by
  have h := gpa_foldl L ⟨0, 0, 0, 0⟩
  simpa [computeGpa] using h

/-! ## Helper lemmas -/

theorem stepTotals_PE (acc : CreditTotals) (c : Course) (h : c.category = "體育") :
    stepTotals acc c = acc := by
  simp [stepTotals, h]

theorem gpaStep_PE (acc : GpaAcc) (c : Course) (h : c.category = "體育") :
    gpaStep acc c = acc := by
  cases hg : GRADE_POINTS c.grade <;> simp [gpaStep, hg, h]

theorem gpaStep_excluded (acc : GpaAcc) (c : Course)
    (h : c.grade = "Pass" ∨ GRADE_POINTS c.grade = none) :
    gpaStep acc c = acc := by
  rcases h with h | h
  · simp [gpaStep, GRADE_POINTS, h]
  · simp [gpaStep, h]

theorem sum_five (l : List Course) (f1 f2 f3 f4 f5 g : Course → ℚ)
    (h : ∀ c, f1 c + f2 c + f3 c + f4 c + f5 c = g c) :
    (l.map f1).sum + (l.map f2).sum + (l.map f3).sum + (l.map f4).sum +
      (l.map f5).sum = (l.map g).sum := by
  induction l with
  | nil => simp
  | cons c l ih =>
    simp only [List.map_cons, List.sum_cons]
    rw [← h c, ← ih]
    ring

theorem sum_map_filter_eq (l : List Course) (f : Course → ℚ) (p : Course → Bool)
    (h : ∀ c, p c = false → f c = 0) :
    ((l.filter p).map f).sum = (l.map f).sum := by
  induction l with
  | nil => simp
  | cons c l ih =>
    by_cases hc : p c
    · simp [List.filter_cons, hc, ih]
    · have hc0 : p c = false := by simpa using hc
      simp [List.filter_cons, hc0, ih, h c hc0]

theorem creditEarned_five_sum (c : Course) :
    creditEarnedAt .commonRequired c + creditEarnedAt .deptRequired c +
      creditEarnedAt .designatedElective c + creditEarnedAt .generalElective c +
      creditEarnedAt .generalEducation c = totalEarnedOf c := by
  by_cases hPE : c.category = "體育"
  · simp [creditEarnedAt, totalEarnedOf, hPE]
  · cases hk : targetKey c.category <;> cases hc : c.isCurrent <;>
      simp [creditEarnedAt, totalEarnedOf, hPE, hk, hc]

theorem creditProjected_five_sum (c : Course) :
    creditProjectedAt .commonRequired c + creditProjectedAt .deptRequired c +
      creditProjectedAt .designatedElective c + creditProjectedAt .generalElective c +
      creditProjectedAt .generalEducation c = totalProjectedOf c := by
  by_cases hPE : c.category = "體育"
  · simp [creditProjectedAt, totalProjectedOf, hPE]
  · cases hk : targetKey c.category <;> cases hc : c.isCurrent <;>
      simp [creditProjectedAt, totalProjectedOf, hPE, hk, hc]

theorem bucket_filter_PE (L : List Course) (k : BucketKey) :
    bucketGet (computeTotals L) k =
      bucketGet (computeTotals (L.filter (fun c => !(c.category = "體育" : Bool)))) k := by
  rw [bucketGet_computeTotals, bucketGet_computeTotals,
    sum_map_filter_eq L (creditEarnedAt k) _
      (fun c hc => by simp [creditEarnedAt, show c.category = "體育" by simpa using hc]),
    sum_map_filter_eq L (creditProjectedAt k) _
      (fun c hc => by simp [creditProjectedAt, show c.category = "體育" by simpa using hc])]

theorem totals_filter_PE (L : List Course) :
    computeTotals L = computeTotals (L.filter (fun c => !(c.category = "體育" : Bool))) := by
  apply CreditTotals.ext
  · rw [total_computeTotals, total_computeTotals,
      sum_map_filter_eq L totalEarnedOf _
        (fun c hc => by simp [totalEarnedOf, show c.category = "體育" by simpa using hc]),
      sum_map_filter_eq L totalProjectedOf _
        (fun c hc => by simp [totalProjectedOf, show c.category = "體育" by simpa using hc])]
  · exact bucket_filter_PE L .commonRequired
  · exact bucket_filter_PE L .deptRequired
  · exact bucket_filter_PE L .designatedElective
  · exact bucket_filter_PE L .generalElective
  · exact bucket_filter_PE L .generalEducation

/-! ## Claims -/

/-- C1: on the two-course example list (3 credits A+ completed, 3 credits B
in progress, both department-required) and any requirements configuration,
the aggregation engine reports `deptRequired.earned = 3`,
`deptRequired.projected = 3`, `currentGPA = "4.30"` and
`projectedGPA = "3.65"`. -/
theorem claim_C1 (R : GraduationRequirements) :
    (computeProgress [exCourseA, exCourseB] R).totals.deptRequired.earned = 3 ∧
    (computeProgress [exCourseA, exCourseB] R).totals.deptRequired.projected = 3 ∧
    (computeProgress [exCourseA, exCourseB] R).currentGPA = "4.30" ∧
    (computeProgress [exCourseA, exCourseB] R).projectedGPA = "3.65" := by
  have hdept : (computeTotals [exCourseA, exCourseB]).deptRequired =
      bucketGet (computeTotals [exCourseA, exCourseB]) .deptRequired := rfl
  have hgpa : computeGpa [exCourseA, exCourseB] = ⟨129/10, 3, 9, 3⟩ := by
    rw [computeGpa_eq]
    simp [gpaEarnedPointsOf, gpaEarnedCreditsOf, gpaProjectedPointsOf,
      gpaProjectedCreditsOf, gpaEligible, gradePointOf, GRADE_POINTS,
      exCourseA, exCourseB]
    norm_num
  refine ⟨?_, ?_, ?_, ?_⟩
  · show (computeTotals [exCourseA, exCourseB]).deptRequired.earned = 3
    rw [hdept, bucketGet_computeTotals]
    simp [creditEarnedAt, targetKey, exCourseA, exCourseB]
  · show (computeTotals [exCourseA, exCourseB]).deptRequired.projected = 3
    rw [hdept, bucketGet_computeTotals]
    simp [creditProjectedAt, targetKey, exCourseA, exCourseB]
  · show currentGPAOf [exCourseA, exCourseB] = "4.30"
    rw [currentGPAOf, hgpa]
    have h30 : ¬ ((0:ℚ) < 3) = False := by norm_num
    have hq : (129/10 : ℚ) / 3 = 43/10 := by norm_num
    have hr : round ((43/10 : ℚ) * 100) = 430 := by rw [round_eq]; norm_num
    simp only [hq]
    rw [if_pos (by norm_num : (0:ℚ) < 3)]
    rw [toFixed2, hr]
    decide
  · show projectedGPAOf [exCourseA, exCourseB] = "3.65"
    rw [projectedGPAOf, hgpa]
    have hq : ((129/10 : ℚ) + 9) / (3 + 3) = 73/20 := by norm_num
    have hr : round ((73/20 : ℚ) * 100) = 365 := by rw [round_eq]; norm_num
    simp only [hq]
    rw [if_pos (by norm_num : (0:ℚ) < 3 + 3)]
    rw [toFixed2, hr]
    decide

/-- C2: for every course list, the earned fields of the five credit-bearing
buckets sum to `total.earned`, the projected fields sum to
`total.projected`, and PE courses contribute nothing to any sum (the report
equals the report of the PE-filtered list). -/
theorem claim_C2 (L : List Course) :
    ((computeTotals L).commonRequired.earned + (computeTotals L).deptRequired.earned +
        (computeTotals L).designatedElective.earned + (computeTotals L).generalElective.earned +
        (computeTotals L).generalEducation.earned = (computeTotals L).total.earned) ∧
    ((computeTotals L).commonRequired.projected + (computeTotals L).deptRequired.projected +
        (computeTotals L).designatedElective.projected + (computeTotals L).generalElective.projected +
        (computeTotals L).generalEducation.projected = (computeTotals L).total.projected) ∧
    computeTotals L = computeTotals (L.filter (fun c => !(c.category = "體育" : Bool))) := by
  refine ⟨?_, ?_, ?_⟩
  · have h1 := bucketGet_computeTotals L .commonRequired
    have h2 := bucketGet_computeTotals L .deptRequired
    have h3 := bucketGet_computeTotals L .designatedElective
    have h4 := bucketGet_computeTotals L .generalElective
    have h5 := bucketGet_computeTotals L .generalEducation
    have ht := total_computeTotals L
    simp only [bucketGet] at h1 h2 h3 h4 h5
    rw [h1, h2, h3, h4, h5, ht]
    exact sum_five L _ _ _ _ _ _ creditEarned_five_sum
  · have h1 := bucketGet_computeTotals L .commonRequired
    have h2 := bucketGet_computeTotals L .deptRequired
    have h3 := bucketGet_computeTotals L .designatedElective
    have h4 := bucketGet_computeTotals L .generalElective
    have h5 := bucketGet_computeTotals L .generalEducation
    have ht := total_computeTotals L
    simp only [bucketGet] at h1 h2 h3 h4 h5
    rw [h1, h2, h3, h4, h5, ht]
    exact sum_five L _ _ _ _ _ _ creditProjected_five_sum
  · exact totals_filter_PE L

/-- C3: appending a physical-education course — whatever its credits and
`isCurrent` flag — leaves the whole ProgressReport unchanged: no bucket,
no total, no GPA figure moves. -/
theorem claim_C3 (L : List Course) (c : Course) (R : GraduationRequirements)
    (h : c.category = "體育") :
    computeProgress (L ++ [c]) R = computeProgress L R := by
  have ht : computeTotals (L ++ [c]) = computeTotals L := by
    unfold computeTotals
    rw [List.foldl_append]
    simp only [List.foldl_cons, List.foldl_nil]
    rw [stepTotals_PE _ _ h]
  have hg : computeGpa (L ++ [c]) = computeGpa L := by
    unfold computeGpa
    rw [List.foldl_append]
    simp only [List.foldl_cons, List.foldl_nil]
    rw [gpaStep_PE _ _ h]
  simp [computeProgress, currentGPAOf, projectedGPAOf, ht, hg]

/-- Witness for C3 at a concrete 4-credit in-progress PE course. -/
theorem claim_C3_witness :
    exCoursePE.category = "體育" ∧
      computeProgress [exCourseA, exCoursePE] ACCOUNTING_111_REQUIREMENTS =
        computeProgress [exCourseA] ACCOUNTING_111_REQUIREMENTS :=
  ⟨rfl, claim_C3 [exCourseA] exCoursePE ACCOUNTING_111_REQUIREMENTS rfl⟩

/-- C4: appending a course whose grade is `Pass`, or whose grade string is
outside the grade map entirely, changes neither GPA output, regardless of
its credits; such grades are excluded, not an error. -/
theorem claim_C4 (L : List Course) (c : Course) (R : GraduationRequirements)
    (h : c.grade = "Pass" ∨ GRADE_POINTS c.grade = none) :
    (computeProgress (L ++ [c]) R).currentGPA = (computeProgress L R).currentGPA ∧
    (computeProgress (L ++ [c]) R).projectedGPA = (computeProgress L R).projectedGPA := by
  have hg : computeGpa (L ++ [c]) = computeGpa L := by
    unfold computeGpa
    rw [List.foldl_append]
    simp only [List.foldl_cons, List.foldl_nil]
    rw [gpaStep_excluded _ _ h]
  constructor <;> simp [computeProgress, currentGPAOf, projectedGPAOf, hg]

/-- Witness for C4 at a concrete `Pass` course with 10 credits. -/
theorem claim_C4_witness :
    (computeProgress [exCourseA, exCoursePass] ACCOUNTING_111_REQUIREMENTS).currentGPA =
      (computeProgress [exCourseA] ACCOUNTING_111_REQUIREMENTS).currentGPA ∧
    (computeProgress [exCourseA, exCoursePass] ACCOUNTING_111_REQUIREMENTS).projectedGPA =
      (computeProgress [exCourseA] ACCOUNTING_111_REQUIREMENTS).projectedGPA :=
  claim_C4 [exCourseA] exCoursePass ACCOUNTING_111_REQUIREMENTS (Or.inl rfl)

/-- C5: a course whose category is none of the five credit-bearing ones
(`其他` or any unrecognized legacy string, PE aside) is folded into the
`generalElective` bucket and into the total — never dropped, never an
error — while every other bucket is untouched. -/
theorem claim_C5 (L : List Course) (c : Course)
    (h : ¬ c.category = "共同必修" ∧ ¬ c.category = "系訂必修" ∧
      ¬ c.category = "指定選修" ∧ ¬ c.category = "一般選修" ∧
      ¬ c.category = "通識" ∧ ¬ c.category = "體育") :
    (computeTotals (L ++ [c])).generalElective =
      ⟨(computeTotals L).generalElective.earned + (if c.isCurrent then 0 else c.credits),
       (computeTotals L).generalElective.projected + (if c.isCurrent then c.credits else 0)⟩ ∧
    (computeTotals (L ++ [c])).total =
      ⟨(computeTotals L).total.earned + (if c.isCurrent then 0 else c.credits),
       (computeTotals L).total.projected + (if c.isCurrent then c.credits else 0)⟩ ∧
    ∀ k : BucketKey, ¬ k = .generalElective →
      bucketGet (computeTotals (L ++ [c])) k = bucketGet (computeTotals L) k := by
  obtain ⟨h1, h2, h3, h4, h5, h6⟩ := h
  have hk : targetKey c.category = .generalElective := by
    simp [targetKey, h1, h2, h3, h4, h5]
  have happ : computeTotals (L ++ [c]) = stepTotals (computeTotals L) c := by
    unfold computeTotals
    rw [List.foldl_append]
    rfl
  refine ⟨?_, ?_, ?_⟩
  · rw [happ]
    show bucketGet (stepTotals (computeTotals L) c) .generalElective = _
    rw [bucketGet_stepTotals]
    cases hc : c.isCurrent <;>
      simp [creditEarnedAt, creditProjectedAt, bucketGet, hk, h6, hc]
  · rw [happ, total_stepTotals]
    cases hc : c.isCurrent <;> simp [totalEarnedOf, totalProjectedOf, h6, hc]
  · intro k hkne
    rw [happ, bucketGet_stepTotals]
    cases hc : c.isCurrent <;>
      simp [creditEarnedAt, creditProjectedAt, hk, h6, hc, Ne.symm hkne]

/-- Witness for C5 at a concrete course with category `"Unknown"`. -/
theorem claim_C5_witness :
    (computeTotals [exCourseA, exCourseUnknown]).generalElective =
      ⟨(computeTotals [exCourseA]).generalElective.earned +
          (if exCourseUnknown.isCurrent then 0 else exCourseUnknown.credits),
       (computeTotals [exCourseA]).generalElective.projected +
          (if exCourseUnknown.isCurrent then exCourseUnknown.credits else 0)⟩ ∧
    bucketGet (computeTotals [exCourseA, exCourseUnknown]) .deptRequired =
      bucketGet (computeTotals [exCourseA]) .deptRequired :=
  ⟨(claim_C5 [exCourseA] exCourseUnknown
      ⟨by decide, by decide, by decide, by decide, by decide, by decide⟩).1,
   (claim_C5 [exCourseA] exCourseUnknown
      ⟨by decide, by decide, by decide, by decide, by decide, by decide⟩).2.2
      .deptRequired (by decide)⟩

/-- C6: each GPA output is the quotient of its points pool by its credit
pool rounded to two decimals, guarded to `"0.00"` when the credit pool is
zero; on the empty list every bucket is `(0, 0)` and both GPA outputs are
`"0.00"`. -/
theorem claim_C6 :
    (∀ L : List Course, currentGPAOf L =
      if 0 < (computeGpa L).earnedCredits then
        toFixed2 ((computeGpa L).earnedPoints / (computeGpa L).earnedCredits)
      else "0.00") ∧
    (∀ L : List Course, projectedGPAOf L =
      if 0 < (computeGpa L).earnedCredits + (computeGpa L).projectedCredits then
        toFixed2 (((computeGpa L).earnedPoints + (computeGpa L).projectedPoints) /
          ((computeGpa L).earnedCredits + (computeGpa L).projectedCredits))
      else "0.00") ∧
    (∀ R : GraduationRequirements,
      computeProgress [] R = ⟨initialAcc, "0.00", "0.00"⟩) := by
  refine ⟨fun _ => rfl, fun _ => rfl, fun R => ?_⟩
  show (⟨computeTotals [], currentGPAOf [], projectedGPAOf []⟩ : ProgressReport) = _
  have h1 : computeTotals [] = initialAcc := rfl
  have h2 : currentGPAOf [] = "0.00" := by decide
  have h3 : projectedGPAOf [] = "0.00" := by
    have hguard : ¬ ((0:ℚ) < 0 + 0) := by norm_num
    show (if 0 < (computeGpa []).earnedCredits + (computeGpa []).projectedCredits then
        toFixed2 (((computeGpa []).earnedPoints + (computeGpa []).projectedPoints) /
          ((computeGpa []).earnedCredits + (computeGpa []).projectedCredits))
      else "0.00") = "0.00"
    exact if_neg hguard
  rw [h1, h2, h3]

theorem computeTotals_perm (L L' : List Course) (h : L.Perm L') :
    computeTotals L = computeTotals L' := by
  have hs : ∀ f : Course → ℚ, (L.map f).sum = (L'.map f).sum :=
    fun f => (h.map f).sum_eq
  have hb : ∀ k, bucketGet (computeTotals L) k = bucketGet (computeTotals L') k := by
    intro k
    rw [bucketGet_computeTotals, bucketGet_computeTotals, hs, hs]
  apply CreditTotals.ext
  · rw [total_computeTotals, total_computeTotals, hs, hs]
  · exact hb .commonRequired
  · exact hb .deptRequired
  · exact hb .designatedElective
  · exact hb .generalElective
  · exact hb .generalEducation

theorem computeGpa_perm (L L' : List Course) (h : L.Perm L') :
    computeGpa L = computeGpa L' := by
  have hs : ∀ f : Course → ℚ, (L.map f).sum = (L'.map f).sum :=
    fun f => (h.map f).sum_eq
  rw [computeGpa_eq, computeGpa_eq, hs, hs, hs, hs]

/-- C7: the aggregation engine is a pure function of the course list and
requirements, and is order-independent: permuted inputs yield the very same
ProgressReport. -/
theorem claim_C7 (L L' : List Course) (R : GraduationRequirements) (h : L.Perm L') :
    computeProgress L R = computeProgress L' R := by
  have ht := computeTotals_perm L L' h
  have hg := computeGpa_perm L L' h
  simp [computeProgress, currentGPAOf, projectedGPAOf, ht, hg]

/-- Witness for C7 at a concrete transposition of the two example courses. -/
theorem claim_C7_witness :
    computeProgress [exCourseA, exCourseB] ACCOUNTING_111_REQUIREMENTS =
      computeProgress [exCourseB, exCourseA] ACCOUNTING_111_REQUIREMENTS :=
  claim_C7 _ _ _ (List.Perm.swap exCourseB exCourseA [])

theorem semNumsAux_no_digit (l : List Char) (h : ∀ ch ∈ l, ch.isDigit = false) :
    semNumsAux l none = [] := by
  induction l with
  | nil => rfl
  | cons c cs ih =>
    have hc := h c (List.mem_cons_self c cs)
    simp only [semNumsAux, hc, Bool.false_eq_true, if_false]
    exact ih fun ch hch => h ch (List.mem_cons_of_mem c hch)

theorem string_data_inj {s t : String} (h : s.data = t.data) : s = t := by
  cases s
  cases t
  simp_all

theorem compareSemesters_spec (x y : String) :
    compareSemesters x y =
      if semYear x = semYear y then (semTerm x : ℤ) - semTerm y
      else (semYear x : ℤ) - semYear y := by
  unfold compareSemesters
  by_cases h : semYear x = semYear y <;> simp [h]

theorem displayCmp_spec (a b : Course) :
    displayCmp a b =
      if semYear a.semester = semYear b.semester then
        (if semTerm a.semester = semTerm b.semester then localeCompare a.name b.name
         else (semTerm a.semester : ℤ) - semTerm b.semester)
      else (semYear a.semester : ℤ) - semYear b.semester := by
  unfold displayCmp
  rw [compareSemesters_spec]
  by_cases hy : semYear a.semester = semYear b.semester
  · by_cases ht : semTerm a.semester = semTerm b.semester
    · simp [hy, ht]
    · have hne : ((semTerm a.semester : ℤ) - semTerm b.semester) ≠ 0 := by omega
      simp [hy, ht, hne]
  · have hne : ((semYear a.semester : ℤ) - semYear b.semester) ≠ 0 := by omega
    simp [hy, hne]

theorem charListCmp_eq_zero {as : List Char} :
    ∀ {bs : List Char}, charListCmp as bs = 0 → as = bs := by
  induction as with
  | nil =>
    intro bs h
    cases bs with
    | nil => rfl
    | cons b bs => simp [charListCmp] at h
  | cons a as ih =>
    intro bs h
    cases bs with
    | nil => simp [charListCmp] at h
    | cons b bs =>
      by_cases hab : a < b
      · simp [charListCmp, hab] at h
      · by_cases hba : b < a
        · simp [charListCmp, hab, hba] at h
        · have hEq : a = b := le_antisymm (not_lt.mp hba) (not_lt.mp hab)
          have h2 : charListCmp as bs = 0 := by simpa [charListCmp, hab, hba] using h
          rw [hEq, ih h2]

theorem charListCmp_antisymm : ∀ as bs : List Char, charListCmp bs as = -charListCmp as bs := by
  intro as
  induction as with
  | nil =>
    intro bs
    cases bs <;> simp [charListCmp]
  | cons a as ih =>
    intro bs
    cases bs with
    | nil => simp [charListCmp]
    | cons b bs =>
      by_cases hab : a < b
      · have hba : ¬ b < a := lt_asymm hab
        simp [charListCmp, hab, hba]
      · by_cases hba : b < a
        · simp [charListCmp, hab, hba]
        · simp [charListCmp, hab, hba, ih bs]

theorem charListCmp_self : ∀ as : List Char, charListCmp as as = 0 := by
  intro as
  induction as with
  | nil => rfl
  | cons a as ih => simp [charListCmp, ih]

theorem charListCmp_le_trans : ∀ as bs cs : List Char,
    charListCmp as bs ≤ 0 → charListCmp bs cs ≤ 0 → charListCmp as cs ≤ 0 := by
  intro as
  induction as with
  | nil =>
    intro bs cs h1 h2
    cases cs <;> simp [charListCmp]
  | cons a as ih =>
    intro bs cs h1 h2
    cases bs with
    | nil => simp [charListCmp] at h1
    | cons b bs =>
      cases cs with
      | nil => simp [charListCmp] at h2
      | cons c cs =>
        by_cases hab : a < b
        · by_cases hbc : b < c
          · have hac : a < c := lt_trans hab hbc
            simp [charListCmp, hac]
          · by_cases hcb : c < b
            · simp [charListCmp, hbc, hcb] at h2
            · have hbc2 : b = c := le_antisymm (not_lt.mp hcb) (not_lt.mp hbc)
              have hac : a < c := hbc2 ▸ hab
              simp [charListCmp, hac]
        · by_cases hba : b < a
          · simp [charListCmp, hab, hba] at h1
          · have hab2 : a = b := le_antisymm (not_lt.mp hba) (not_lt.mp hab)
            have h1t : charListCmp as bs ≤ 0 := by
              simpa [charListCmp, hab, hba] using h1
            by_cases hbc : b < c
            · have hac : a < c := hab2 ▸ hbc
              simp [charListCmp, hac]
            · by_cases hcb : c < b
              · simp [charListCmp, hbc, hcb] at h2
              · have hbc2 : b = c := le_antisymm (not_lt.mp hcb) (not_lt.mp hbc)
                have h2t : charListCmp bs cs ≤ 0 := by
                  simpa [charListCmp, hbc, hcb] using h2
                have hac1 : ¬ a < c := by
                  rw [hab2, hbc2]
                  exact lt_irrefl c
                have hca1 : ¬ c < a := by
                  rw [hab2, hbc2]
                  exact lt_irrefl c
                simp only [charListCmp]
                rw [if_neg hac1, if_neg hca1]
                exact ih bs cs h1t h2t

theorem displayCmp_antisymm (a b : Course) : displayCmp b a = -displayCmp a b := by
  rw [displayCmp_spec, displayCmp_spec]
  by_cases hy : semYear a.semester = semYear b.semester
  · by_cases ht : semTerm a.semester = semTerm b.semester
    · rw [if_pos hy, if_pos ht, if_pos hy.symm, if_pos ht.symm]
      exact charListCmp_antisymm a.name.data b.name.data
    · have ht2 : ¬ semTerm b.semester = semTerm a.semester := fun hh => ht hh.symm
      rw [if_pos hy, if_neg ht, if_pos hy.symm, if_neg ht2]
      omega
  · have hy2 : ¬ semYear b.semester = semYear a.semester := fun hh => hy hh.symm
    rw [if_neg hy, if_neg hy2]
    omega

theorem displayCmp_zero_iff (a b : Course) :
    displayCmp a b = 0 ↔
      (semYear a.semester = semYear b.semester ∧
        semTerm a.semester = semTerm b.semester ∧ a.name = b.name) := by
  rw [displayCmp_spec]
  constructor
  · intro h0
    by_cases hy : semYear a.semester = semYear b.semester
    · by_cases ht : semTerm a.semester = semTerm b.semester
      · rw [if_pos hy, if_pos ht] at h0
        exact ⟨hy, ht, string_data_inj (charListCmp_eq_zero h0)⟩
      · rw [if_pos hy, if_neg ht] at h0
        exact absurd (by omega : semTerm a.semester = semTerm b.semester) ht
    · rw [if_neg hy] at h0
      exact absurd (by omega : semYear a.semester = semYear b.semester) hy
  · rintro ⟨hy, ht, hn⟩
    rw [if_pos hy, if_pos ht]
    show charListCmp a.name.data b.name.data = 0
    rw [hn]
    exact charListCmp_self b.name.data

theorem displayCmp_le_trans (a b c : Course) (h1 : displayCmp a b ≤ 0)
    (h2 : displayCmp b c ≤ 0) : displayCmp a c ≤ 0 := by
  rw [displayCmp_spec] at h1 h2 ⊢
  by_cases hyab : semYear a.semester = semYear b.semester
  · rw [if_pos hyab] at h1
    by_cases hybc : semYear b.semester = semYear c.semester
    · rw [if_pos hybc] at h2
      rw [if_pos (hyab.trans hybc)]
      by_cases htab : semTerm a.semester = semTerm b.semester
      · rw [if_pos htab] at h1
        by_cases htbc : semTerm b.semester = semTerm c.semester
        · rw [if_pos htbc] at h2
          rw [if_pos (htab.trans htbc)]
          exact charListCmp_le_trans _ _ _ h1 h2
        · rw [if_neg htbc] at h2
          have hne : ¬ semTerm a.semester = semTerm c.semester := by omega
          rw [if_neg hne]
          omega
      · rw [if_neg htab] at h1
        by_cases htbc : semTerm b.semester = semTerm c.semester
        · rw [if_pos htbc] at h2
          have hne : ¬ semTerm a.semester = semTerm c.semester := by omega
          rw [if_neg hne]
          omega
        · rw [if_neg htbc] at h2
          have hne : ¬ semTerm a.semester = semTerm c.semester := by omega
          rw [if_neg hne]
          omega
    · rw [if_neg hybc] at h2
      have hne : ¬ semYear a.semester = semYear c.semester := by omega
      rw [if_neg hne]
      omega
  · rw [if_neg hyab] at h1
    by_cases hybc : semYear b.semester = semYear c.semester
    · rw [if_pos hybc] at h2
      have hne : ¬ semYear a.semester = semYear c.semester := by omega
      rw [if_neg hne]
      omega
    · rw [if_neg hybc] at h2
      have hne : ¬ semYear a.semester = semYear c.semester := by omega
      rw [if_neg hne]
      omega

theorem mem_insertCourse {y c : Course} :
    ∀ {l : List Course}, y ∈ insertCourse c l ↔ y = c ∨ y ∈ l := by
  intro l
  induction l with
  | nil => simp [insertCourse]
  | cons x xs ih =>
    by_cases hc : displayCmp c x < 0
    · simp only [insertCourse]
      rw [if_pos hc]
      simp [List.mem_cons]
    · simp only [insertCourse]
      rw [if_neg hc]
      simp only [List.mem_cons, ih]
      tauto

theorem pairwise_insertCourse (c : Course) (l : List Course)
    (h : l.Pairwise (fun a b => displayCmp a b ≤ 0)) :
    (insertCourse c l).Pairwise (fun a b => displayCmp a b ≤ 0) := by
  induction l with
  | nil => simp [insertCourse]
  | cons x xs ih =>
    rw [List.pairwise_cons] at h
    obtain ⟨hx, hxs⟩ := h
    by_cases hc : displayCmp c x < 0
    · simp only [insertCourse]
      rw [if_pos hc, List.pairwise_cons]
      constructor
      · intro y hy
        rcases List.mem_cons.mp hy with rfl | hy2
        · exact le_of_lt hc
        · exact displayCmp_le_trans c x y (le_of_lt hc) (hx y hy2)
      · rw [List.pairwise_cons]
        exact ⟨hx, hxs⟩
    · simp only [insertCourse]
      rw [if_neg hc, List.pairwise_cons]
      constructor
      · intro y hy
        rcases mem_insertCourse.mp hy with heq | hy2
        · rw [heq]
          have ha := displayCmp_antisymm c x
          omega
        · exact hx y hy2
      · exact ih hxs

theorem filter_insertCourse (x c : Course) (l : List Course)
    (hl : l.Pairwise (fun a b => displayCmp a b ≤ 0)) :
    (insertCourse c l).filter (tiedWith x) =
      l.filter (tiedWith x) ++ (if tiedWith x c then [c] else []) := by
  induction l with
  | nil =>
    by_cases hp : tiedWith x c <;> simp [insertCourse, hp]
  | cons z zs ih =>
    rw [List.pairwise_cons] at hl
    obtain ⟨hz, hzs⟩ := hl
    by_cases hc : displayCmp c z < 0
    · simp only [insertCourse]
      rw [if_pos hc]
      by_cases hp : tiedWith x c
      · have hct : displayCmp x c = 0 := by simpa [tiedWith] using hp
        have hnone : ∀ w ∈ z :: zs, ¬ tiedWith x w = true := by
          intro w hw hwt
          have hwt2 : displayCmp x w = 0 := by simpa [tiedWith] using hwt
          have hwc : displayCmp w c = 0 := by
            rw [displayCmp_zero_iff] at hwt2 hct ⊢
            exact ⟨hwt2.1.symm.trans hct.1, hwt2.2.1.symm.trans hct.2.1,
              hwt2.2.2.symm.trans hct.2.2⟩
          rcases List.mem_cons.mp hw with heq | hw2
          · rw [heq] at hwc
            have ha := displayCmp_antisymm c z
            omega
          · have h1 := hz w hw2
            have h2 : displayCmp z c ≤ 0 := displayCmp_le_trans z w c h1 (le_of_eq hwc)
            have ha := displayCmp_antisymm c z
            omega
        have hzero : (z :: zs).filter (tiedWith x) = [] :=
          List.filter_eq_nil_iff.mpr hnone
        simp [List.filter_cons, hp, hzero]
      · simp [List.filter_cons, hp]
    · simp only [insertCourse]
      rw [if_neg hc]
      by_cases hpz : tiedWith x z <;>
        simp [List.filter_cons, hpz, ih hzs]

theorem sortFold_filter (x : Course) :
    ∀ l acc : List Course, acc.Pairwise (fun a b => displayCmp a b ≤ 0) →
      (l.foldl (fun acc c => insertCourse c acc) acc).filter (tiedWith x) =
        acc.filter (tiedWith x) ++ l.filter (tiedWith x) := by
  intro l
  induction l with
  | nil =>
    intro acc hacc
    simp
  | cons c cs ih =>
    intro acc hacc
    simp only [List.foldl_cons]
    rw [ih (insertCourse c acc) (pairwise_insertCourse c acc hacc),
      filter_insertCourse x c acc hacc]
    by_cases hp : tiedWith x c <;> simp [List.filter_cons, hp]

/-- C8: the chronological comparator parses the semester label into numeric
tokens (missing/unparsable tokens default to 0) and orders by year, then
term, then name; the labels `111-2`, `111-1`, `112-1`, `109` sort as
`109`, `111-1`, `111-2`, `112-1`, and a label with no digits parses as
year 0, term 0. -/
theorem claim_C8 :
    ((sortCoursesForDisplay [semEx0, semEx1, semEx2, semEx3]).map Course.semester =
      ["109", "111-1", "111-2", "112-1"]) ∧
    (∀ s : String, (∀ ch ∈ s.data, ch.isDigit = false) →
      semYear s = 0 ∧ semTerm s = 0) ∧
    (∀ a b : Course, displayCmp a b < 0 ↔
      (semYear a.semester < semYear b.semester ∨
        (semYear a.semester = semYear b.semester ∧
          semTerm a.semester < semTerm b.semester) ∨
        (semYear a.semester = semYear b.semester ∧
          semTerm a.semester = semTerm b.semester ∧
          localeCompare a.name b.name < 0))) := by
  refine ⟨by decide, ?_, ?_⟩
  · intro s h
    have hnil : semNums s = [] := semNumsAux_no_digit s.data h
    constructor <;> simp [semYear, semTerm, hnil]
  · intro a b
    rw [displayCmp_spec]
    by_cases hy : semYear a.semester = semYear b.semester
    · by_cases ht : semTerm a.semester = semTerm b.semester
      · rw [if_pos hy, if_pos ht]
        simp [hy, ht]
      · rw [if_pos hy, if_neg ht]
        constructor
        · intro h
          exact Or.inr (Or.inl ⟨hy, by omega⟩)
        · rintro (h | ⟨_, h⟩ | ⟨_, h, _⟩)
          · omega
          · omega
          · exact absurd h ht
    · rw [if_neg hy]
      constructor
      · intro h
        exact Or.inl (by omega)
      · rintro (h | ⟨h, _⟩ | ⟨h, _, _⟩)
        · omega
        · exact absurd h hy
        · exact absurd h hy

/-- Witness for C8 at the digit-free label `"N/A"`. -/
theorem claim_C8_witness : semYear "N/A" = 0 ∧ semTerm "N/A" = 0 :=
  claim_C8.2.1 "N/A" (by decide)

/-- C9 counterexample: the display comparator declares these two courses
equal although their semester strings differ (`"111-1"` vs `"111/1"`), so
"equal only when both semester and name match exactly" fails on the code. -/
theorem claim_C9_counterexample :
    displayCmp cmpCourseA cmpCourseB = 0 ∧ ¬ cmpCourseA.semester = cmpCourseB.semester := by
  decide

/-- C9 (amended): the comparator is total and antisymmetric, and it
declares two courses equal exactly when the two parsed `(year, term)` keys
agree and the names agree — the raw semester strings need not match
exactly; and the stable sort preserves the original relative order of
tied courses: the tie class of any course appears in the sorted output as
the same subsequence as in the input. -/
theorem claim_C9_amended (a b : Course) :
    (displayCmp a b = 0 ↔
      (semYear a.semester = semYear b.semester ∧
        semTerm a.semester = semTerm b.semester ∧ a.name = b.name)) ∧
    displayCmp b a = -displayCmp a b ∧
    (∀ l : List Course,
      (sortCoursesForDisplay l).filter (tiedWith a) = l.filter (tiedWith a)) := by
  refine ⟨displayCmp_zero_iff a b, displayCmp_antisymm a b, fun l => ?_⟩
  have h := sortFold_filter a l [] List.Pairwise.nil
  simpa [sortCoursesForDisplay] using h

/-- Witness for C9 (amended): two courses with different semester strings
and categories that the comparator declares equal indeed share parsed keys
and name. -/
theorem claim_C9_amended_witness :
    semYear cmpCourseC.semester = semYear cmpCourseA.semester ∧
      semTerm cmpCourseC.semester = semTerm cmpCourseA.semester ∧
      cmpCourseC.name = cmpCourseA.name :=
  (claim_C9_amended cmpCourseC cmpCourseA).1.mp (by decide)

/-- C10: `handleUpdateCourse` preserves length and order, maps exactly the
positions whose id matches to the updated course (every other position is
untouched), and is the identity when no id matches. -/
theorem claim_C10 (u : Course) (l : List Course) :
    (updateCourse u l).length = l.length ∧
    (∀ i : ℕ, (updateCourse u l)[i]? =
      (l[i]?).map (fun c => if c.id = u.id then u else c)) ∧
    ((∀ c ∈ l, ¬ c.id = u.id) → updateCourse u l = l) := by
  refine ⟨by simp [updateCourse], ?_, ?_⟩
  · intro i
    simp [updateCourse]
  · induction l with
    | nil => intro _; rfl
    | cons c cs ih =>
      intro h
      simp only [updateCourse, List.map_cons]
      rw [if_neg (h c (List.mem_cons_self c cs))]
      exact congrArg (List.cons c) (ih fun x hx => h x (List.mem_cons_of_mem c hx))

/-- Witness for C10: updating with an id absent from the list returns the
list unchanged, with its length intact. -/
theorem claim_C10_witness :
    updateCourse updCourse [exCourseA] = [exCourseA] ∧
      (updateCourse updCourse [exCourseA]).length = 1 :=
  ⟨(claim_C10 updCourse [exCourseA]).2.2 (by decide),
   (claim_C10 updCourse [exCourseA]).1⟩

end NTUCredits
